import Mathlib

/-!
Shallow embedding of the mstk helper library (src/mstk/docxtk.py and
src/mstk/pptxtk.py).  Python numeric values are modelled as rationals,
Python exceptions as an explicit error type carried in `Except`, and the
document objects as explicit value structures recording what the code
writes into them.
-/

set_option maxHeartbeats 1000000

/-- The Python exceptions that the embedded code can raise. -/
inductive PyError where
  | assertionError (msg : String)
  | indexError
  | typeError
  | valueError (msg : String)
deriving DecidableEq

/-- Python list indexing `xs[i]`: raises `IndexError` when out of range. -/
def pyGet {α : Type} (xs : List α) (i : Nat) : Except PyError α :=
  match xs.get? i with
  | some x => Except.ok x
  | none => Except.error PyError.indexError

/-! ### pptxtk: proportional rectangle splitting -/

/-- Running cumulative sum with accumulator, embedding `np.cumsum`. -/
def cumsumAux (acc : ℚ) : List ℚ → List ℚ
  | [] => []
  | p :: ps => (acc + p) :: cumsumAux (acc + p) ps

/-- `np.cumsum(proportions)`. -/
def cumsum (l : List ℚ) : List ℚ := cumsumAux 0 l

/-- Embedding of `_make_sub_dims` (pptxtk.py): raises `ValueError` when the
proportions do not sum to 1, otherwise returns the list of sub-segment
starts (`[start] + list(((cumsum * length) + start)[:-1])`) and lengths
(`proportions * length`). -/
def make_sub_dims (start length : ℚ) (proportions : List ℚ) :
    Except PyError (List ℚ × List ℚ) :=
  if proportions.sum ≠ 1 then
    Except.error (PyError.valueError "Proportions should sum to 1")
  else
    let proportions_cum := cumsum proportions
    let starts := start :: (proportions_cum.map (fun c => c * length + start)).dropLast
    let lengths := proportions.map (fun p => p * length)
    Except.ok (starts, lengths)

/-- One entry of the dict built by `make_col_dims` / `make_row_dims`: the
values stored under keys `left{i}`, `top{i}`, `width{i}`, `height{i}`. -/
structure RectDims where
  left : ℚ
  top : ℚ
  width : ℚ
  height : ℚ
deriving DecidableEq

/-- Embedding of `make_col_dims` (pptxtk.py): splits a rectangle into
columns via `_make_sub_dims`; entry `i` of the result holds the dict values
keyed `left{i}`, `width{i}`, `top{i}`, `height{i}`. -/
def make_col_dims (left width : ℚ) (proportions : List ℚ) (top height : ℚ) :
    Except PyError (List RectDims) :=
  match make_sub_dims left width proportions with
  | Except.error e => Except.error e
  | Except.ok (lefts, widths) =>
    (List.range proportions.length).mapM (fun i => do
      let le ← pyGet lefts i
      let wi ← pyGet widths i
      pure { left := le, top := top, width := wi, height := height : RectDims })

/-- Embedding of `make_row_dims` (pptxtk.py): splits a rectangle into rows
via `_make_sub_dims`. -/
def make_row_dims (top height : Rat) (proportions : List ℚ) (left width : ℚ) :
    Except PyError (List RectDims) :=
  match make_sub_dims top height proportions with
  | Except.error e => Except.error e
  | Except.ok (tops, heights) =>
    (List.range proportions.length).mapM (fun i => do
      let tp ← pyGet tops i
      let hi ← pyGet heights i
      pure { left := left, top := tp, width := width, height := hi : RectDims })

/-! ### docxtk: tables -/

/-- The cell content of the table written by `add_table_from_list`:
the column-header row, the row-header column, and the data cells, in the
order the code writes them. -/
structure DocTable where
  colHeaders : List String
  rowHeaders : List String
  cells : List (List String)
deriving DecidableEq

/-- A block of a word document: a styled paragraph or a table. -/
inductive DocBlock where
  | paragraph (text : String) (style : String)
  | table (t : DocTable)
deriving DecidableEq

/-- Embedding of `add_table_from_list` (docxtk.py).  The title paragraph is
added first; then `no_rows = len(data)`, `no_cols = len(columns)`;
`data[0]` is evaluated inside the first assertion (raising `IndexError` on
an empty grid); the two assertions are translated exactly as written in the
source, including the second one comparing `no_rows` with `len(data)`;
then the header and data cells are populated by Python list indexing. -/
def add_table_from_list (doc : List DocBlock) (title : String)
    (columns rows : List String) (data : List (List String))
    (footnote : Option String) : Except PyError (List DocBlock) :=
  let doc1 := doc ++ [DocBlock.paragraph title "Footer"]
  let no_rows := data.length
  let no_cols := columns.length
  match pyGet data 0 with
  | Except.error e => Except.error e
  | Except.ok firstRow =>
    if no_cols ≠ firstRow.length then
      Except.error (PyError.assertionError
        "The number of headers and columns of data are not equal")
    else if no_rows ≠ data.length then
      Except.error (PyError.assertionError
        "The number of row headers and rows of data are not equal")
    else
      match (List.range no_cols).mapM (fun j => pyGet columns j) with
      | Except.error e => Except.error e
      | Except.ok colHeaders =>
        match (List.range no_rows).mapM (fun i => pyGet rows i) with
        | Except.error e => Except.error e
        | Except.ok rowHeaders =>
          match (List.range no_rows).mapM (fun i =>
              match pyGet data i with
              | Except.error e => Except.error e
              | Except.ok row =>
                (List.range no_cols).mapM (fun j => pyGet row j)) with
          | Except.error e => Except.error e
          | Except.ok cells =>
            let doc2 := doc1 ++ [DocBlock.table ⟨colHeaders, rowHeaders, cells⟩]
            match footnote with
            | some f =>
              if f.length ≠ 0 then
                Except.ok (doc2 ++ [DocBlock.paragraph f "Normal"])
              else Except.ok doc2
            | none => Except.ok doc2

/-! ### pptxtk: tables -/

/-- What `_add_table_from_lst` writes into the pptx table object: its
shape, the populated cells, the explicitly set column widths (in cm,
`width * proportion` for each proportion), and the font size applied by
`_set_table_font_size` (or `none` when the `if font_size:` test is falsy). -/
structure PptxTable where
  nrows : Nat
  ncols : Nat
  firstCell : String
  colHeaders : List String
  rowHeaders : List String
  cells : List (List String)
  colWidths : List ℚ
  fontSize : Option ℚ
deriving DecidableEq

/-- `df.index`, `df.columns` and `df.values` of the pandas DataFrame passed
to `add_table_from_df`; cell values are modelled after `str()` conversion. -/
structure DataFrame where
  index : List String
  columns : List String
  values : List (List String)
deriving DecidableEq

/-- Python `sum(col_proportions)`: `sum(None)` raises `TypeError`. -/
def pySumOpt (o : Option (List ℚ)) : Except PyError ℚ :=
  match o with
  | none => Except.error PyError.typeError
  | some ps => Except.ok ps.sum

/-- Embedding of `_add_table_from_lst` (pptxtk.py).  The source runs
`assert sum(col_proportions) == 1.` before the `if col_proportions:`
truthiness check, so a `none` argument raises `TypeError` inside `sum`;
then the widths of `table.columns[i]` are set for each proportion
(`IndexError` past the table's `ncols` columns), the table is populated
(`values[i][j]` may raise `IndexError`), and the font size is applied when
`font_size` is truthy. -/
def add_table_from_lst (cols rows : List String) (values : List (List String))
    (left top width height : ℚ) (first_cell : String) (font_size : ℚ)
    (col_proportions : Option (List ℚ)) : Except PyError PptxTable :=
  let nrows := rows.length + 1
  let ncols := cols.length + 1
  match pySumOpt col_proportions with
  | Except.error e => Except.error e
  | Except.ok s =>
    if s ≠ 1 then
      Except.error (PyError.assertionError "sum of col_proportions equals 1")
    else
      let ps := col_proportions.getD []
      match (if ps ≠ [] then
          ps.enum.mapM (fun ip =>
            if ip.1 < ncols then Except.ok (width * ip.2)
            else Except.error PyError.indexError)
        else Except.ok []) with
      | Except.error e => Except.error e
      | Except.ok colWidths =>
        match (List.range rows.length).mapM (fun i =>
            match pyGet values i with
            | Except.error e => Except.error e
            | Except.ok r =>
              (List.range cols.length).mapM (fun j => pyGet r j)) with
        | Except.error e => Except.error e
        | Except.ok cells =>
          Except.ok
            { nrows := nrows, ncols := ncols, firstCell := first_cell,
              colHeaders := cols, rowHeaders := rows, cells := cells,
              colWidths := colWidths,
              fontSize := if font_size ≠ 0 then some font_size else none }

/-- Embedding of `add_table_from_df` (pptxtk.py): unpacks the DataFrame and
delegates to `_add_table_from_lst`, passing the literal `12` as
`font_size` (the caller's `font_size` argument is not forwarded). -/
def add_table_from_df (df : DataFrame) (left top width height : ℚ)
    (col_proportions : Option (List ℚ)) (first_cell : String)
    (font_size : ℚ) : Except PyError PptxTable :=
  add_table_from_lst df.columns df.index df.values left top width height
    first_cell 12 col_proportions

/-! ### docxtk: number rounding for display

`num_round` manipulates Python numbers; they are embedded as rationals.
Python `round` uses round-half-to-even; `int()` truncates toward zero;
`len(str(int(x)))` counts decimal digits plus one for a minus sign. -/

/-- Python `round(q)` with no digits: nearest integer, ties to even. -/
def pyRoundInt (q : ℚ) : Int :=
  if q - (⌊q⌋ : ℚ) < 1 / 2 then ⌊q⌋
  else if (1 : ℚ) / 2 < q - (⌊q⌋ : ℚ) then ⌊q⌋ + 1
  else if ⌊q⌋ % 2 = 0 then ⌊q⌋ else ⌊q⌋ + 1

/-- Python `round(q, n)`: round to `n` decimal digits (ties to even);
negative `n` rounds to a multiple of `10 ^ (-n)`. -/
def pyRound (q : ℚ) (n : Int) : ℚ :=
  if 0 ≤ n then
    (pyRoundInt (q * (10 : ℚ) ^ n.toNat) : ℚ) / (10 : ℚ) ^ n.toNat
  else
    (pyRoundInt (q / (10 : ℚ) ^ (-n).toNat) : ℚ) * (10 : ℚ) ^ (-n).toNat

/-- Python `int(q)`: truncation toward zero. -/
def pyIntTrunc (q : ℚ) : Int := if 0 ≤ q then ⌊q⌋ else -⌊-q⌋

/-- `len(str(n))` for a Python int: decimal digit count, plus one for the
sign of a negative number. -/
def pyLenStrInt (n : Int) : Nat :=
  if n < 0 then Nat.log 10 n.natAbs + 2 else Nat.log 10 n.natAbs + 1

/-- The integer computed by `num_round` (docxtk.py) before string
formatting: the branch ladder on `x` followed by `int(round(x))`. -/
def num_round_val (x : ℚ) : Int :=
  let x1 : ℚ :=
    if 100 < x then pyRound x (2 - (pyLenStrInt (pyIntTrunc x) : Int))
    else if x < 100 then pyRound x (3 - (pyLenStrInt (pyIntTrunc x) : Int))
    else if 10 < |x| then pyRound x (-1)
    else x
  pyRoundInt x1

/-- Decimal digits of a natural number, most significant first; the first
argument is recursion fuel (any bound on the digit count, here the number
itself suffices). -/
def natDigitsAux : Nat → Nat → List Char
  | _, 0 => []
  | 0, _ + 1 => []
  | fuel + 1, n + 1 =>
    natDigitsAux fuel ((n + 1) / 10) ++ [Char.ofNat (48 + (n + 1) % 10)]

/-- Decimal digits of a natural number, most significant first. -/
def natDigits (n : Nat) : List Char := natDigitsAux n n

/-- Insert a comma after every third character (input is the digit list
least significant first). -/
def commaChunk : List Char → List Char
  | [] => []
  | [a] => [a]
  | [a, b] => [a, b]
  | [a, b, c] => [a, b, c]
  | a :: b :: c :: rest => a :: b :: c :: ',' :: commaChunk rest

/-- Python `f-string` formatting with the comma grouping option applied to
an int, as in the return statement of `num_round`. -/
def pyFormatComma (n : Int) : String :=
  let ds := if n.natAbs = 0 then ['0'] else natDigits n.natAbs
  let grouped := (commaChunk ds.reverse).reverse
  if n < 0 then String.mk ('-' :: grouped) else String.mk grouped

/-- Embedding of `num_round` (docxtk.py): the rounded integer rendered as
a comma-grouped decimal string. -/
def num_round (x : ℚ) : String := pyFormatComma (num_round_val x)


/-! ### Helper lemmas: cumulative sums and sub-segment lists -/

lemma cumsumAux_length (a : ℚ) (l : List ℚ) :
    (cumsumAux a l).length = l.length := by
  induction l generalizing a with
  | nil => rfl
  | cons p tl ih => simp [cumsumAux, ih]

lemma cumsumAux_getD (l : List ℚ) (a : ℚ) (i : Nat) (h : i < l.length) :
    (cumsumAux a l).getD i 0 = a + (l.take (i + 1)).sum := by
  induction l generalizing a i with
  | nil => simp at h
  | cons p tl ih =>
    cases i with
    | zero => simp [cumsumAux]
    | succ k =>
      simp only [cumsumAux, List.getD_cons_succ]
      rw [ih (a + p) k (by simpa using h)]
      simp
      ring

lemma sum_eq_one_ne_nil {ps : List ℚ} (h : ps.sum = 1) : ps ≠ [] := by
  intro hnil
  rw [hnil] at h
  simp at h

lemma mapM_ok {α β : Type} (l : List α) (f : α → Except PyError β)
    (g : α → β) (h : ∀ a ∈ l, f a = Except.ok (g a)) :
    l.mapM f = Except.ok (l.map g) := by
  induction l with
  | nil => rfl
  | cons x tl ih =>
    rw [List.mapM_cons, h x (List.mem_cons_self x tl), List.map_cons,
      ih (fun a ha => h a (List.mem_cons_of_mem x ha))]
    rfl

lemma pyGet_ok {α : Type} (xs : List α) (i : Nat) (d : α) (h : i < xs.length) :
    pyGet xs i = Except.ok (xs.getD i d) := by
  unfold pyGet
  rw [List.get?_eq_get h]
  simp [List.getD_eq_getElem?_getD, List.getElem?_eq_getElem h]

lemma make_sub_dims_err {s l : ℚ} {ps : List ℚ} (h : ps.sum ≠ 1) :
    make_sub_dims s l ps =
      Except.error (PyError.valueError "Proportions should sum to 1") := by
  simp [make_sub_dims, h]

lemma make_sub_dims_ok {s l : ℚ} {ps : List ℚ} (h : ps.sum = 1) :
    make_sub_dims s l ps =
      Except.ok (s :: ((cumsum ps).map (fun c => c * l + s)).dropLast,
        ps.map (fun p => p * l)) := by
  simp [make_sub_dims, h]

lemma starts_length {ps : List ℚ} (hne : ps ≠ []) (s l : ℚ) :
    (s :: ((cumsum ps).map (fun c => c * l + s)).dropLast).length = ps.length := by
  have hpos : 0 < ps.length := List.length_pos.mpr hne
  simp [cumsum, List.length_dropLast, List.length_map, cumsumAux_length]
  omega

lemma make_col_dims_ok (le w tp he : ℚ) (ps : List ℚ) (h : ps.sum = 1) :
    ∃ r, make_col_dims le w ps tp he = Except.ok r := by
  have hne : ps ≠ [] := sum_eq_one_ne_nil h
  have hlens := starts_length hne le w
  have hlenl : (ps.map (fun p => p * w)).length = ps.length := List.length_map ps _
  unfold make_col_dims
  rw [make_sub_dims_ok h]
  exact ⟨_, mapM_ok _ _ (fun i =>
    { left := (le :: ((cumsum ps).map (fun c => c * w + le)).dropLast).getD i 0,
      top := tp, width := (ps.map (fun p => p * w)).getD i 0, height := he })
    (fun i hi => by
      have hilt : i < ps.length := List.mem_range.mp hi
      rw [pyGet_ok _ _ 0 (by omega), pyGet_ok _ _ 0 (by omega)]
      rfl)⟩

lemma make_row_dims_ok (tp he le w : ℚ) (ps : List ℚ) (h : ps.sum = 1) :
    ∃ r, make_row_dims tp he ps le w = Except.ok r := by
  have hne : ps ≠ [] := sum_eq_one_ne_nil h
  have hlens := starts_length hne tp he
  have hlenl : (ps.map (fun p => p * he)).length = ps.length := List.length_map ps _
  unfold make_row_dims
  rw [make_sub_dims_ok h]
  exact ⟨_, mapM_ok _ _ (fun i =>
    { left := le,
      top := (tp :: ((cumsum ps).map (fun c => c * he + tp)).dropLast).getD i 0,
      width := w, height := (ps.map (fun p => p * he)).getD i 0 })
    (fun i hi => by
      have hilt : i < ps.length := List.mem_range.mp hi
      rw [pyGet_ok _ _ 0 (by omega), pyGet_ok _ _ 0 (by omega)]
      rfl)⟩

/-- C2: `_make_sub_dims` (and hence `make_col_dims` and `make_row_dims`)
raises a `ValueError` if and only if the proportions do not sum to exactly
1.0, and returns normally if and only if they do. -/
theorem make_sub_dims_valueError_iff (s l tp he : ℚ) (ps : List ℚ) :
    ((∃ m, make_sub_dims s l ps = Except.error (PyError.valueError m)) ↔
      ps.sum ≠ 1) ∧
    ((∃ r, make_sub_dims s l ps = Except.ok r) ↔ ps.sum = 1) ∧
    ((∃ m, make_col_dims s l ps tp he = Except.error (PyError.valueError m)) ↔
      ps.sum ≠ 1) ∧
    ((∃ r, make_col_dims s l ps tp he = Except.ok r) ↔ ps.sum = 1) ∧
    ((∃ m, make_row_dims s l ps tp he = Except.error (PyError.valueError m)) ↔
      ps.sum ≠ 1) ∧
    ((∃ r, make_row_dims s l ps tp he = Except.ok r) ↔ ps.sum = 1) := by
  by_cases h : ps.sum = 1
  · obtain ⟨rc, hrc⟩ := make_col_dims_ok s l tp he ps h
    obtain ⟨rr, hrr⟩ := make_row_dims_ok s l tp he ps h
    refine ⟨⟨?_, ?_⟩, ⟨?_, ?_⟩, ⟨?_, ?_⟩, ⟨?_, ?_⟩, ⟨?_, ?_⟩, ⟨?_, ?_⟩⟩
    · rintro ⟨m, hm⟩
      rw [make_sub_dims_ok h] at hm
      exact absurd hm (by simp)
    · intro hc; exact absurd h hc
    · intro _; exact h
    · intro _; exact ⟨_, make_sub_dims_ok h⟩
    · rintro ⟨m, hm⟩
      rw [hrc] at hm
      exact absurd hm (by simp)
    · intro hc; exact absurd h hc
    · intro _; exact h
    · intro _; exact ⟨rc, hrc⟩
    · rintro ⟨m, hm⟩
      rw [hrr] at hm
      exact absurd hm (by simp)
    · intro hc; exact absurd h hc
    · intro _; exact h
    · intro _; exact ⟨rr, hrr⟩
  · have hcol : make_col_dims s l ps tp he =
        Except.error (PyError.valueError "Proportions should sum to 1") := by
      unfold make_col_dims
      rw [make_sub_dims_err h]
    have hrow : make_row_dims s l ps tp he =
        Except.error (PyError.valueError "Proportions should sum to 1") := by
      unfold make_row_dims
      rw [make_sub_dims_err h]
    refine ⟨⟨?_, ?_⟩, ⟨?_, ?_⟩, ⟨?_, ?_⟩, ⟨?_, ?_⟩, ⟨?_, ?_⟩, ⟨?_, ?_⟩⟩
    · intro _; exact h
    · intro _; exact ⟨_, make_sub_dims_err h⟩
    · rintro ⟨r, hr⟩
      rw [make_sub_dims_err h] at hr
      exact absurd hr (by simp)
    · intro hc; exact absurd hc h
    · intro _; exact h
    · intro _; exact ⟨_, hcol⟩
    · rintro ⟨r, hr⟩
      rw [hcol] at hr
      exact absurd hr (by simp)
    · intro hc; exact absurd hc h
    · intro _; exact h
    · intro _; exact ⟨_, hrow⟩
    · rintro ⟨r, hr⟩
      rw [hrow] at hr
      exact absurd hr (by simp)
    · intro hc; exact absurd hc h

lemma list_getD_eq {α : Type} (l : List α) (d : α) (i : Nat) (h : i < l.length) :
    l.getD i d = l[i] := by
  rw [List.getD_eq_getElem?_getD, List.getElem?_eq_getElem h]
  rfl

lemma cumsumAux_getElem (l : List ℚ) (a : ℚ) (i : Nat)
    (h : i < (cumsumAux a l).length) :
    (cumsumAux a l)[i] = a + (l.take (i + 1)).sum := by
  induction l generalizing a i with
  | nil => simp [cumsumAux] at h
  | cons p tl ih =>
    cases i with
    | zero => simp [cumsumAux]
    | succ k =>
      simp only [cumsumAux, List.getElem_cons_succ]
      rw [ih (a + p) k (by simpa [cumsumAux] using h)]
      simp
      ring

lemma starts_getD (s l : ℚ) (ps : List ℚ) (i : Nat) (h : i < ps.length) :
    (s :: ((cumsum ps).map (fun c => c * l + s)).dropLast).getD i 0 =
      (ps.take i).sum * l + s := by
  cases i with
  | zero => simp
  | succ k =>
    have hc : (cumsum ps).length = ps.length := by
      simp [cumsum, cumsumAux_length]
    have hdl : (((cumsum ps).map (fun c => c * l + s)).dropLast).length =
        ps.length - 1 := by
      simp [hc]
    rw [List.getD_cons_succ, list_getD_eq _ _ _ (by omega)]
    rw [List.getElem_dropLast, List.getElem_map]
    simp only [cumsum]
    rw [cumsumAux_getElem ps 0 k (by rw [cumsumAux_length]; omega)]
    rw [zero_add]

/-- C3: for every start offset, total length and non-empty proportions
summing to 1, `_make_sub_dims` returns sub-segments whose lengths sum to
the total length, in input order (`lengths[i] = proportions[i] * length`),
contiguous (`starts[i+1] = starts[i] + lengths[i]`) and starting at the
given offset. -/
theorem make_sub_dims_partition (s l : ℚ) (ps : List ℚ) (hne : ps ≠ [])
    (hsum : ps.sum = 1) (starts lengths : List ℚ)
    (h : make_sub_dims s l ps = Except.ok (starts, lengths)) :
    lengths.sum = l ∧
    starts.length = ps.length ∧ lengths.length = ps.length ∧
    starts.getD 0 0 = s ∧
    (∀ i, i < ps.length → lengths.getD i 0 = ps.getD i 0 * l) ∧
    (∀ i, i + 1 < ps.length →
      starts.getD (i + 1) 0 = starts.getD i 0 + lengths.getD i 0) := by
  rw [make_sub_dims_ok hsum] at h
  simp only [Except.ok.injEq, Prod.mk.injEq] at h
  obtain ⟨hS, hL⟩ := h
  subst hS
  subst hL
  have hlenL : (ps.map (fun p => p * l)).length = ps.length := List.length_map ps _
  refine ⟨?_, starts_length hne s l, hlenL, by simp, ?_, ?_⟩
  · have hmul : (ps.map fun p => p * l).sum = (ps.map fun p => p).sum * l :=
      List.sum_map_mul_right ps (fun p => p) l
    rw [hmul]
    simp only [List.map_id']
    rw [hsum, one_mul]
  · intro i hi
    rw [list_getD_eq _ _ _ (by omega), List.getElem_map,
      list_getD_eq _ _ _ hi]
  · intro i hi
    rw [starts_getD s l ps (i + 1) hi, starts_getD s l ps i (by omega)]
    rw [list_getD_eq _ _ _ (by omega), List.getElem_map]
    rw [List.sum_take_succ ps i (by omega)]
    ring

/-- C4: splitting a length of 24 at offset 1 with proportions
`(0.5, 0.5)` yields exactly the segments `(1, 12)` and `(13, 12)`. -/
theorem make_sub_dims_example :
    make_sub_dims 1 24 [1/2, 1/2] = Except.ok ([1, 13], [12, 12]) := by
  norm_num [make_sub_dims, cumsum, cumsumAux]

/-- Witness for C3 at `start = 1`, `length = 24`,
`proportions = [1/2, 1/2]`. -/
theorem make_sub_dims_partition_witness :
    ([(12 : ℚ), 12].sum = 24) :=
  (make_sub_dims_partition 1 24 [1/2, 1/2] (by simp) (by norm_num)
    [1, 13] [12, 12] (by norm_num [make_sub_dims, cumsum, cumsumAux])).1

/-! ### Table claims -/

lemma add_table_from_lst_fontSize (cols rows : List String)
    (values : List (List String)) (l t w h fs : ℚ) (fc : String)
    (cp : Option (List ℚ)) (tbl : PptxTable)
    (hok : add_table_from_lst cols rows values l t w h fc fs cp = Except.ok tbl) :
    tbl.fontSize = if fs ≠ 0 then some fs else none := by
  simp only [add_table_from_lst] at hok
  repeat' split at hok
  all_goals first
    | (simp only [Except.ok.injEq] at hok; rw [← hok]; simp_all)
    | exact absurd hok (by simp)

/-- C1: evaluation of `add_table_from_list` at a row-header mismatch.  With
one column header, two row headers and a single data row, the claim (and
the assertion's own message) says the call must fail with an assertion
error; the code instead succeeds, because the second assertion compares
`no_rows` — itself defined as `len(data)` — with `len(data)`, a tautology,
and the extra row header `"r2"` is silently ignored. -/
theorem add_table_row_header_mismatch_not_detected :
    add_table_from_list [] "t" ["c"] ["r1", "r2"] [["1"]] none =
      Except.ok [DocBlock.paragraph "t" "Footer",
        DocBlock.table ⟨["c"], ["r1"], [["1"]]⟩] := rfl

/-- C8: calling `_add_table_from_lst` or `add_table_from_df` with
`col_proportions` omitted or `None` always raises `TypeError`, because
`sum(col_proportions)` is evaluated inside the assertion before the
`if col_proportions:` check. -/
theorem add_table_none_proportions_typeError (cols rows : List String)
    (values : List (List String)) (df : DataFrame) (l t w h fs : ℚ)
    (fc : String) :
    add_table_from_lst cols rows values l t w h fc fs none =
      Except.error PyError.typeError ∧
    add_table_from_df df l t w h none fc fs =
      Except.error PyError.typeError := ⟨rfl, rfl⟩

/-- C9: `add_table_from_df` ignores its `font_size` parameter — whenever it
returns a table, the font size applied to that table is 12 points, for
every `font_size` argument supplied by the caller. -/
theorem add_table_from_df_font_always_12 (df : DataFrame) (l t w h : ℚ)
    (cp : Option (List ℚ)) (fc : String) (fs : ℚ) (tbl : PptxTable)
    (hok : add_table_from_df df l t w h cp fc fs = Except.ok tbl) :
    tbl.fontSize = some 12 := by
  have h12 := add_table_from_lst_fontSize df.columns df.index df.values
    l t w h 12 fc cp tbl hok
  rw [if_pos (by norm_num)] at h12
  exact h12

/-- Witness for C9: a successful call with `font_size = 99` whose resulting
table still has font size 12. -/
theorem add_table_from_df_font_always_12_witness :
    ({ nrows := 1, ncols := 1, firstCell := " ", colHeaders := [],
       rowHeaders := [], cells := [], colWidths := [1],
       fontSize := some 12 } : PptxTable).fontSize = some 12 :=
  add_table_from_df_font_always_12 ⟨[], [], []⟩ 0 0 1 1 (some [1]) " " 99 _
    (by norm_num [add_table_from_df, add_table_from_lst, pySumOpt, List.enum,
      List.mapM.loop, pure, Except.pure, bind, Except.bind])

/-- C10: `add_table_from_list` on an empty data grid fails with
`IndexError` from `data[0]` (inside the first assertion expression),
before any assertion message is produced. -/
theorem add_table_from_list_empty_data (doc : List DocBlock) (title : String)
    (columns rows : List String) (footnote : Option String) :
    add_table_from_list doc title columns rows [] footnote =
      Except.error PyError.indexError := rfl

/-! ### Helper lemmas: Python rounding -/

/-- An integer whose decimal expansion has at most its two most
significant digits non-zero. -/
def twoSigFigs (y : Int) : Prop :=
  ∃ m : Nat, ((10 : Int) ^ m ∣ y) ∧ y.natAbs < 100 * 10 ^ m

lemma pyRoundInt_intCast (k : Int) : pyRoundInt (k : ℚ) = k := by
  unfold pyRoundInt
  rw [Int.floor_intCast, if_pos (by norm_num)]

lemma pyRoundInt_le (q : ℚ) : (pyRoundInt q : ℚ) ≤ q + 1 / 2 := by
  have h1 := Int.floor_le q
  have h2 := Int.lt_floor_add_one q
  unfold pyRoundInt
  split_ifs with hA hB hC <;> push_cast <;> linarith

lemma le_pyRoundInt (q : ℚ) : q - 1 / 2 ≤ (pyRoundInt q : ℚ) := by
  have h1 := Int.floor_le q
  have h2 := Int.lt_floor_add_one q
  unfold pyRoundInt
  split_ifs with hA hB hC <;> push_cast <;> linarith

lemma pyRoundInt_natAbs_le (q : ℚ) (B : Nat) (h : |q| < (B : ℚ) + 1 / 2) :
    (pyRoundInt q).natAbs ≤ B := by
  have h1 := pyRoundInt_le q
  have h2 := le_pyRoundInt q
  rw [abs_lt] at h
  have habs : |(pyRoundInt q : ℚ)| < (B : ℚ) + 1 := by
    rw [abs_lt]
    constructor <;> linarith
  have hq : ((pyRoundInt q).natAbs : ℚ) < (B : ℚ) + 1 := by
    rw [Int.cast_natAbs, Int.cast_abs]
    exact habs
  have hn : (pyRoundInt q).natAbs < B + 1 := by exact_mod_cast hq
  omega

lemma twoSigFigs_of_natAbs_le {y : Int} (h : y.natAbs ≤ 100) :
    twoSigFigs y := by
  by_cases h100 : y.natAbs < 100
  · exact ⟨0, one_dvd y, by simpa using h100⟩
  · have heq : y.natAbs = 100 := by omega
    refine ⟨2, ?_, by rw [heq]; norm_num⟩
    rcases Int.natAbs_eq_iff.mp heq with hy | hy <;> rw [hy] <;> norm_num

lemma twoSigFigs_mul_pow {y : Int} (e : Nat) (h : twoSigFigs y) :
    twoSigFigs (y * 10 ^ e) := by
  obtain ⟨m, hdvd, hlt⟩ := h
  refine ⟨m + e, ?_, ?_⟩
  · rw [pow_add]
    exact mul_dvd_mul hdvd dvd_rfl
  · rw [Int.natAbs_mul, Int.natAbs_pow]
    have h10 : (10 : Int).natAbs = 10 := rfl
    rw [h10, pow_add, ← mul_assoc]
    have hpos : 0 < 10 ^ e := Nat.pos_pow_of_pos e (by norm_num)
    exact (Nat.mul_lt_mul_right hpos).mpr hlt

lemma pyRound_neg (q : ℚ) (e : Nat) (he : 1 ≤ e) :
    pyRound q (-(e : Int)) = (pyRoundInt (q / 10 ^ e) : ℚ) * 10 ^ e := by
  unfold pyRound
  rw [if_neg (by omega : ¬(0 : Int) ≤ -(e : Int))]
  have h1 : (-(-(e : Int))).toNat = e := by omega
  rw [h1]

lemma twoSigFigs_pyRound_neg (x : ℚ) (e : Nat) (he : 1 ≤ e)
    (hx : |x| < 100 * 10 ^ e) :
    twoSigFigs (pyRoundInt (pyRound x (-(e : Int)))) := by
  rw [pyRound_neg x e he]
  have hpow : (0 : ℚ) < (10 : ℚ) ^ e := by positivity
  have hrabs : (pyRoundInt (x / 10 ^ e)).natAbs ≤ 100 := by
    apply pyRoundInt_natAbs_le
    rw [abs_div, abs_of_pos hpow, div_lt_iff hpow]
    push_cast
    nlinarith [hx, hpow]
  have hcast : ((pyRoundInt (x / 10 ^ e) : ℚ) * 10 ^ e) =
      ((pyRoundInt (x / 10 ^ e) * 10 ^ e : Int) : ℚ) := by
    push_cast
    ring
  rw [hcast, pyRoundInt_intCast]
  exact twoSigFigs_mul_pow e (twoSigFigs_of_natAbs_le hrabs)

lemma twoSigFigs_pyRound_nonneg (x : ℚ) (n : Int) (hn : 0 ≤ n)
    (hx : |x| < 100) :
    twoSigFigs (pyRoundInt (pyRound x n)) := by
  unfold pyRound
  rw [if_pos hn]
  have hpow : (0 : ℚ) < (10 : ℚ) ^ n.toNat := by positivity
  have h10 : (1 : ℚ) ≤ (10 : ℚ) ^ n.toNat := one_le_pow₀ (by norm_num)
  have h1 := pyRoundInt_le (x * 10 ^ n.toNat)
  have h2 := le_pyRoundInt (x * 10 ^ n.toNat)
  apply twoSigFigs_of_natAbs_le
  apply pyRoundInt_natAbs_le
  rw [abs_div, abs_of_pos hpow, div_lt_iff hpow]
  push_cast
  have h3 : |x * 10 ^ n.toNat| < 100 * 10 ^ n.toNat := by
    rw [abs_mul, abs_of_pos hpow]
    exact mul_lt_mul_of_pos_right hx hpow
  rw [abs_lt] at h3 ⊢
  constructor <;> nlinarith [h3.1, h3.2, h1, h2, h10]

lemma pyRound_int_nonneg (k : Int) (n : Int) (hn : 0 ≤ n) :
    pyRound (k : ℚ) n = (k : ℚ) := by
  unfold pyRound
  rw [if_pos hn]
  have hc : (k : ℚ) * 10 ^ n.toNat = ((k * 10 ^ n.toNat : Int) : ℚ) := by
    push_cast
    ring
  rw [hc, pyRoundInt_intCast]
  push_cast
  exact mul_div_cancel_right₀ _ (by positivity)

lemma pyRound_int_dvd (k : Int) (e : Nat) (he : 1 ≤ e)
    (hd : (10 : Int) ^ e ∣ k) :
    pyRound (k : ℚ) (-(e : Int)) = (k : ℚ) := by
  rw [pyRound_neg _ e he]
  obtain ⟨c, hc⟩ := hd
  have hdiv : ((k : ℚ)) / 10 ^ e = (c : ℚ) := by
    rw [hc]
    push_cast
    rw [mul_comm]
    exact mul_div_cancel_right₀ _ (by positivity)
  rw [hdiv, pyRoundInt_intCast, hc]
  push_cast
  ring

lemma pyIntTrunc_intCast (k : Int) : pyIntTrunc (k : ℚ) = k := by
  unfold pyIntTrunc
  split_ifs with h
  · exact Int.floor_intCast k
  · have hc : -(k : ℚ) = ((-k : Int) : ℚ) := by push_cast; ring
    rw [hc, Int.floor_intCast, neg_neg]

lemma abs_lt_trunc_add_one (q : ℚ) :
    |q| < ((pyIntTrunc q).natAbs : ℚ) + 1 := by
  unfold pyIntTrunc
  split_ifs with h
  · rw [abs_of_nonneg h]
    have hf : 0 ≤ ⌊q⌋ := Int.floor_nonneg.mpr h
    have hcast : ((⌊q⌋.natAbs : ℚ)) = (⌊q⌋ : ℚ) := by
      rw [Int.cast_natAbs, Int.cast_abs, abs_of_nonneg (by exact_mod_cast hf)]
    rw [hcast]
    exact Int.lt_floor_add_one q
  · push_neg at h
    rw [abs_of_neg (by linarith)]
    have hf : 0 ≤ ⌊-q⌋ := Int.floor_nonneg.mpr (by linarith)
    have hcast : (((-⌊-q⌋).natAbs : ℚ)) = (⌊-q⌋ : ℚ) := by
      rw [Int.natAbs_neg, Int.cast_natAbs, Int.cast_abs,
        abs_of_nonneg (by exact_mod_cast hf)]
    rw [hcast]
    have := Int.lt_floor_add_one (-q)
    linarith

lemma abs_lt_bound (t : Int) (x : ℚ) (habs : |x| < (t.natAbs : ℚ) + 1)
    (hg : 1 ≤ Nat.log 10 t.natAbs) :
    |x| < 100 * 10 ^ (Nat.log 10 t.natAbs - 1) := by
  set g := Nat.log 10 t.natAbs with hgdef
  have hup : t.natAbs < 10 ^ (g + 1) := Nat.lt_pow_succ_log_self (by norm_num) _
  have heq : (100 : ℚ) * 10 ^ (g - 1) = 10 ^ (g + 1) := by
    have hge : g - 1 + 2 = g + 1 := by omega
    calc (100 : ℚ) * 10 ^ (g - 1) = 10 ^ 2 * 10 ^ (g - 1) := by norm_num
    _ = 10 ^ (g - 1 + 2) := by rw [pow_add]; ring
    _ = 10 ^ (g + 1) := by rw [hge]
  have hc : ((t.natAbs : ℚ)) + 1 ≤ (10 : ℚ) ^ (g + 1) := by
    have h' : t.natAbs + 1 ≤ 10 ^ (g + 1) := hup
    exact_mod_cast h'
  rw [heq]
  linarith

lemma num_round_val_twoSigFigs (x : ℚ) : twoSigFigs (num_round_val x) := by
  unfold num_round_val
  have habs := abs_lt_trunc_add_one x
  set t := pyIntTrunc x with ht
  by_cases hb1 : 100 < x
  · rw [if_pos hb1]
    have hx0 : (0 : ℚ) ≤ x := by linarith
    have ht2 : t = ⌊x⌋ := by rw [ht]; unfold pyIntTrunc; rw [if_pos hx0]
    have hf100 : (100 : Int) ≤ ⌊x⌋ := Int.le_floor.mpr (by push_cast; linarith)
    have hlen : pyLenStrInt t = Nat.log 10 t.natAbs + 1 := by
      unfold pyLenStrInt
      rw [if_neg (by omega : ¬t < 0)]
    set g := Nat.log 10 t.natAbs with hgdef
    have hg2 : 2 ≤ g := by
      have hp : (10 : ℕ) ^ 2 ≤ t.natAbs := by norm_num; omega
      exact (Nat.pow_le_iff_le_log (by norm_num) (by omega)).mp hp
    have hexp : ((2 : Int) - ((g + 1 : ℕ) : Int)) = -(((g - 1 : ℕ)) : Int) := by
      push_cast [Nat.cast_sub (by omega : 1 ≤ g)]
      ring
    rw [hlen, hexp]
    exact twoSigFigs_pyRound_neg x (g - 1) (by omega)
      (abs_lt_bound t x habs (by omega))
  · rw [if_neg hb1]
    by_cases hb2 : x < 100
    · rw [if_pos hb2]
      by_cases hA : t.natAbs ≤ 99
      · apply twoSigFigs_pyRound_nonneg x _ ?_ ?_
        · have hlog : Nat.log 10 t.natAbs ≤ 1 := by
            have h99 : Nat.log 10 99 = 1 :=
              Nat.log_eq_of_pow_le_of_lt_pow (by norm_num) (by norm_num)
            calc Nat.log 10 t.natAbs ≤ Nat.log 10 99 := Nat.log_mono_right hA
            _ = 1 := h99
          have hlen3 : pyLenStrInt t ≤ 3 := by
            unfold pyLenStrInt
            split_ifs <;> omega
          omega
        · have hc : ((t.natAbs : ℚ)) ≤ 99 := by exact_mod_cast hA
          linarith
      · push_neg at hA
        have htneg : t < 0 := by
          rcases lt_or_ge t 0 with h | h
          · exact h
          · exfalso
            by_cases hx0 : 0 ≤ x
            · have ht2 : t = ⌊x⌋ := by
                rw [ht]; unfold pyIntTrunc; rw [if_pos hx0]
              have hfl : ⌊x⌋ < 100 := Int.floor_lt.mpr (by push_cast; linarith)
              omega
            · have ht2 : t = -⌊-x⌋ := by
                rw [ht]; unfold pyIntTrunc; rw [if_neg hx0]
              have h2 : 0 ≤ ⌊-x⌋ := by
                push_neg at hx0
                exact Int.floor_nonneg.mpr (by linarith)
              omega
        have hlen : pyLenStrInt t = Nat.log 10 t.natAbs + 2 := by
          unfold pyLenStrInt
          rw [if_pos htneg]
        set g := Nat.log 10 t.natAbs with hgdef
        have hg2 : 2 ≤ g := by
          have hp : (10 : ℕ) ^ 2 ≤ t.natAbs := by norm_num; omega
          exact (Nat.pow_le_iff_le_log (by norm_num) (by omega)).mp hp
        have hexp : ((3 : Int) - ((g + 2 : ℕ) : Int)) = -(((g - 1 : ℕ)) : Int) := by
          push_cast [Nat.cast_sub (by omega : 1 ≤ g)]
          ring
        rw [hlen, hexp]
        exact twoSigFigs_pyRound_neg x (g - 1) (by omega)
          (abs_lt_bound t x habs (by omega))
    · rw [if_neg hb2]
      have hx : x = 100 := le_antisymm (not_lt.mp hb1) (not_lt.mp hb2)
      subst hx
      rw [if_pos (by norm_num : (10 : ℚ) < |(100 : ℚ)|)]
      have hneg1 : (-1 : Int) = -((1 : ℕ) : Int) := by norm_num
      rw [hneg1]
      apply twoSigFigs_pyRound_neg _ 1 le_rfl
      norm_num

lemma num_round_val_fixed (y : Int) (h : twoSigFigs y) :
    num_round_val (y : ℚ) = y := by
  obtain ⟨m, hdvd, hlt⟩ := h
  have h100m : (100 : ℕ) * 10 ^ m = 10 ^ (m + 2) := by
    rw [pow_add]
    ring
  unfold num_round_val
  rw [pyIntTrunc_intCast]
  by_cases hb1 : (100 : ℚ) < (y : ℚ)
  · rw [if_pos hb1]
    have hy100 : (100 : Int) < y := by exact_mod_cast hb1
    have hlen : pyLenStrInt y = Nat.log 10 y.natAbs + 1 := by
      unfold pyLenStrInt
      rw [if_neg (by omega)]
    set g := Nat.log 10 y.natAbs with hgdef
    have hg2 : 2 ≤ g := by
      have hp : (10 : ℕ) ^ 2 ≤ y.natAbs := by norm_num; omega
      exact (Nat.pow_le_iff_le_log (by norm_num) (by omega)).mp hp
    have hexp : ((2 : Int) - ((g + 1 : ℕ) : Int)) = -(((g - 1 : ℕ)) : Int) := by
      push_cast [Nat.cast_sub (by omega : 1 ≤ g)]
      ring
    have hgm : g - 1 ≤ m := by
      have hlow : 10 ^ g ≤ y.natAbs := by
        rw [hgdef]
        exact Nat.pow_log_le_self 10 (by omega)
      have hup : y.natAbs < 10 ^ (m + 2) := by rw [← h100m]; exact hlt
      have hpow : 10 ^ g < 10 ^ (m + 2) := lt_of_le_of_lt hlow hup
      have := (Nat.pow_lt_pow_iff_right (by norm_num : 1 < 10)).mp hpow
      omega
    have hdvd2 : (10 : Int) ^ (g - 1) ∣ y :=
      dvd_trans (pow_dvd_pow 10 hgm) hdvd
    rw [hlen, hexp, pyRound_int_dvd y (g - 1) (by omega) hdvd2,
      pyRoundInt_intCast]
  · rw [if_neg hb1]
    by_cases hb2 : (y : ℚ) < 100
    · rw [if_pos hb2]
      by_cases hA : y.natAbs ≤ 99
      · have hlog : Nat.log 10 y.natAbs ≤ 1 := by
          have h99 : Nat.log 10 99 = 1 :=
            Nat.log_eq_of_pow_le_of_lt_pow (by norm_num) (by norm_num)
          calc Nat.log 10 y.natAbs ≤ Nat.log 10 99 := Nat.log_mono_right hA
          _ = 1 := h99
        have hlen3 : pyLenStrInt y ≤ 3 := by
          unfold pyLenStrInt
          split_ifs <;> omega
        rw [pyRound_int_nonneg y _ (by omega), pyRoundInt_intCast]
      · push_neg at hA
        have hyneg : y < 0 := by
          have hy : y < 100 := by exact_mod_cast hb2
          omega
        have hlen : pyLenStrInt y = Nat.log 10 y.natAbs + 2 := by
          unfold pyLenStrInt
          rw [if_pos hyneg]
        set g := Nat.log 10 y.natAbs with hgdef
        have hg2 : 2 ≤ g := by
          have hp : (10 : ℕ) ^ 2 ≤ y.natAbs := by norm_num; omega
          exact (Nat.pow_le_iff_le_log (by norm_num) (by omega)).mp hp
        have hexp : ((3 : Int) - ((g + 2 : ℕ) : Int)) = -(((g - 1 : ℕ)) : Int) := by
          push_cast [Nat.cast_sub (by omega : 1 ≤ g)]
          ring
        have hgm : g - 1 ≤ m := by
          have hlow : 10 ^ g ≤ y.natAbs := by
            rw [hgdef]
            exact Nat.pow_log_le_self 10 (by omega)
          have hup : y.natAbs < 10 ^ (m + 2) := by rw [← h100m]; exact hlt
          have hpow : 10 ^ g < 10 ^ (m + 2) := lt_of_le_of_lt hlow hup
          have := (Nat.pow_lt_pow_iff_right (by norm_num : 1 < 10)).mp hpow
          omega
        have hdvd2 : (10 : Int) ^ (g - 1) ∣ y :=
          dvd_trans (pow_dvd_pow 10 hgm) hdvd
        rw [hlen, hexp, pyRound_int_dvd y (g - 1) (by omega) hdvd2,
          pyRoundInt_intCast]
    · have hy : (y : ℚ) = 100 := le_antisymm (not_lt.mp hb1) (not_lt.mp hb2)
      have hy100 : y = 100 := by exact_mod_cast hy
      subst hy100
      rw [if_neg hb2]
      rw [if_pos (by push_cast; norm_num : (10 : ℚ) < |((100 : Int) : ℚ)|)]
      have hneg1 : (-1 : Int) = -((1 : ℕ) : Int) := by norm_num
      rw [hneg1, pyRound_int_dvd 100 1 le_rfl (by norm_num), pyRoundInt_intCast]

lemma pyRoundInt_eq_of (q : ℚ) (n : Int) (h1 : (n : ℚ) ≤ q)
    (h2 : q < (n : ℚ) + 1 / 2) : pyRoundInt q = n := by
  have hf : ⌊q⌋ = n := by
    rw [Int.floor_eq_iff]
    exact ⟨h1, by linarith⟩
  unfold pyRoundInt
  rw [hf, if_pos (by linarith)]

/-- C5: for every numeric input, `num_round` produces the input rounded so
that only its two most significant decimal digits are non-zero (the
rounding integer `num_round_val` always has two significant figures), and
returns it formatted as a comma-grouped decimal string. -/
theorem num_round_two_sig_figs (x : ℚ) :
    twoSigFigs (num_round_val x) ∧
    num_round x = pyFormatComma (num_round_val x) :=
  ⟨num_round_val_twoSigFigs x, rfl⟩

/-- C6: `num_round(12345)` returns `"12,000"` and `num_round(7)`
returns `"7"`. -/
theorem num_round_examples :
    num_round 12345 = "12,000" ∧ num_round 7 = "7" := by
  constructor
  · unfold num_round num_round_val
    have htr : pyIntTrunc (12345 : ℚ) = 12345 := by
      have hc : ((12345 : Int) : ℚ) = (12345 : ℚ) := by norm_num
      rw [← hc, pyIntTrunc_intCast]
    have hlen : pyLenStrInt 12345 = 5 := by
      unfold pyLenStrInt
      rw [if_neg (by omega)]
      have h1 : (12345 : Int).natAbs = 12345 := rfl
      have hlog : Nat.log 10 (12345 : Int).natAbs = 4 := by
        rw [h1]
        exact Nat.log_eq_of_pow_le_of_lt_pow (by norm_num) (by norm_num)
      omega
    rw [if_pos (by norm_num : (100 : ℚ) < 12345), htr, hlen]
    have hexp : ((2 : Int) - ((5 : ℕ) : Int)) = -(((3 : ℕ)) : Int) := by
      norm_num
    rw [hexp, pyRound_neg _ 3 (by norm_num)]
    have hr : pyRoundInt ((12345 : ℚ) / 10 ^ 3) = 12 := by
      apply pyRoundInt_eq_of
      · push_cast
        norm_num
      · push_cast
        norm_num
    rw [hr]
    have hc12 : ((12 : Int) : ℚ) * 10 ^ 3 = ((12000 : Int) : ℚ) := by
      push_cast
      norm_num
    rw [hc12, pyRoundInt_intCast]
    decide
  · unfold num_round num_round_val
    have htr : pyIntTrunc (7 : ℚ) = 7 := by
      have hc : ((7 : Int) : ℚ) = (7 : ℚ) := by norm_num
      rw [← hc, pyIntTrunc_intCast]
    have hlen : pyLenStrInt 7 = 1 := by
      unfold pyLenStrInt
      rw [if_neg (by omega)]
      have h1 : (7 : Int).natAbs = 7 := rfl
      have hlog : Nat.log 10 (7 : Int).natAbs = 0 := by
        rw [h1]
        exact Nat.log_eq_of_pow_le_of_lt_pow (by norm_num) (by norm_num)
      omega
    rw [if_neg (by norm_num : ¬(100 : ℚ) < 7),
      if_pos (by norm_num : (7 : ℚ) < 100), htr, hlen]
    have hexp : ((3 : Int) - ((1 : ℕ) : Int)) = (2 : Int) := by norm_num
    rw [hexp]
    have hc : (7 : ℚ) = ((7 : Int) : ℚ) := by norm_num
    rw [hc, pyRound_int_nonneg 7 2 (by norm_num), pyRoundInt_intCast]
    decide

/-- C7: `num_round` is idempotent — applying the rounding to the numeric
value of `num_round(x)` (the integer the returned string denotes) returns
the same result as `num_round(x)`. -/
theorem num_round_idempotent (x : ℚ) :
    num_round ((num_round_val x : Int) : ℚ) = num_round x := by
  unfold num_round
  rw [num_round_val_fixed (num_round_val x) (num_round_val_twoSigFigs x)]
